import Mathlib

/-!
Shallow embedding of the inventory reconciliation core of
`src/shopify_dashboard.py` (mosdash).

Modelling conventions:
* Timestamps are `Int` values denoting UTC instants; the code compares
  parsed timezone-aware datetimes, which form a linear order.
* An order's `created_at` is `Option Int`: `none` models a missing or
  unparseable creation time (both are skipped by the code in the same way).
* Python strings are Lean `String`s; `py_lower` models `str.lower`
  restricted to the Latin letters and Hungarian accented vowels that occur
  in this program's data.
* The Google-Sheets ledger (`stock_movements`) is a `List MovementRecord`,
  appended at the end; the `stock_current` projection is a `List StockRow`.
* Fallible I/O is made explicit: `sync_durable` takes the fetch outcome as
  an `Option (List OrderEvent)` (`none` models the HTTP fetch raising) and
  a write budget (`some k` models the (k+1)-th `append_row` call raising,
  `none` models no persistence fault); a raised exception is the
  `SyncOutcome.error` result, mirroring the `except` handler in the UI.
-/

def py_lower_char (c : Char) : Char :=
  if 'A' ≤ c ∧ c ≤ 'Z' then Char.ofNat (c.toNat + 32)
  else if c = 'Á' then 'á' else if c = 'É' then 'é' else if c = 'Í' then 'í'
  else if c = 'Ó' then 'ó' else if c = 'Ö' then 'ö' else if c = 'Ő' then 'ő'
  else if c = 'Ú' then 'ú' else if c = 'Ü' then 'ü' else if c = 'Ű' then 'ű'
  else c

def py_lower (s : String) : String :=
  ⟨s.data.map py_lower_char⟩

/-- Python `str.strip()` (used on the manual reason, line 486): drop
whitespace from both ends. -/
def py_strip (s : String) : String :=
  ⟨((s.data.dropWhile Char.isWhitespace).reverse.dropWhile
      Char.isWhitespace).reverse⟩

/-- Substring test on character lists: does `hay` contain `needle`? -/
def list_contains_sub (needle : List Char) : List Char → Bool
  | [] => needle.isEmpty
  | c :: rest => needle.isPrefixOf (c :: rest) || list_contains_sub needle rest

def str_contains_sub (hay needle : String) : Bool :=
  list_contains_sub needle.data hay.data

/-- The fixed priority/express keyword set of `is_priority_item` (line 140). -/
def priority_keywords : List String :=
  ["elsőbbségi", "elsobsegi", "priority", "express", "gyorsított", "gyorsitott"]

/-- `is_priority_item` (lines 138-141): case-insensitive substring match
against the keyword set. -/
def is_priority_item (title : String) : Bool :=
  priority_keywords.any (fun k => str_contains_sub (py_lower title) k)

/-- `envelope_type` (lines 143-152). -/
def envelope_type (qty : Int) : String :=
  if qty = 1 then "F16"
  else if qty = 2 ∨ qty = 3 then "H18"
  else if qty = 4 then "I19"
  else if qty = 5 ∨ qty = 6 then "K20"
  else "Nincs"

structure LineItem where
  title : String
  quantity : Int
deriving DecidableEq

structure OrderEvent where
  id : String
  name : String
  created_at : Option Int
  line_items : List LineItem
deriving DecidableEq

structure MovementRecord where
  timestamp : Int
  item_name : String
  change : Int
  reason : String
  source : String
  source_id : String
deriving DecidableEq

structure StockRow where
  item_type : String
  item_name : String
  quantity : Int
deriving DecidableEq

structure EnvCounts where
  f16 : Nat
  h18 : Nat
  i19 : Nat
  k20 : Nat
deriving DecidableEq

def EnvCounts.zero : EnvCounts := ⟨0, 0, 0, 0⟩

/-- `env_counts[env] += 1` (line 270) on the dict initialised at line 229. -/
def EnvCounts.bump (c : EnvCounts) (env : String) : EnvCounts :=
  if env = "F16" then { c with f16 := c.f16 + 1 }
  else if env = "H18" then { c with h18 := c.h18 + 1 }
  else if env = "I19" then { c with i19 := c.i19 + 1 }
  else if env = "K20" then { c with k20 := c.k20 + 1 }
  else c

/-- The key set of the `env_counts` dict (line 229), i.e. the categories
that trigger an envelope deduction (`if env in env_counts`, line 268). -/
def env_keys : List String := ["F16", "H18", "I19", "K20"]

/-- Sum of quantities of the non-priority line items (`mos_qty`, line 257,
after the filter at line 254). -/
def mos_qty (o : OrderEvent) : Int :=
  ((o.line_items.filter (fun i => !(is_priority_item i.title))).map
    (fun i => i.quantity)).sum

/-- The shared human-readable reason string (lines 265 and 271). -/
def order_reason (o : OrderEvent) : String :=
  "Auto Shopify (" ++ o.name ++ ")"

/-- The dedup set: source_ids of ledger records whose source lowercases to
"shopify" (lines 198-200). -/
def processed_ids (log : List MovementRecord) : List String :=
  (log.filter (fun r => decide (py_lower r.source = "shopify"))).map
    (fun r => r.source_id)

/-- The baseline-strictness test (lines 211-220): keep an order only when
its creation time parsed and is strictly greater than the baseline. -/
def strictly_newer (baseline : Int) (o : OrderEvent) : Bool :=
  match o.created_at with
  | some t => decide (baseline < t)
  | none => false

/-- The early-`continue` conditions of the selection loop (lines 205-222):
an order survives iff its id is nonempty, not yet in the dedup set, and its
creation time is strictly after the baseline. -/
def order_ok (processed : List String) (baseline : Int) (o : OrderEvent) : Bool :=
  decide (o.id ≠ "") && !(decide (o.id ∈ processed)) && strictly_newer baseline o

/-- `new_orders` (lines 205-222). -/
def new_orders_of (processed : List String) (baseline : Int)
    (orders : List OrderEvent) : List OrderEvent :=
  orders.filter (order_ok processed baseline)

/-- First-match in-place quantity update (`stock_df.at[i, "quantity"] += delta`
at the first index whose `item_name` matches, lines 235, 245-246). -/
def stock_update_first : List StockRow → String → Int → List StockRow
  | [], _, _ => []
  | r :: rest, nm, delta =>
    if r.item_name = nm then { r with quantity := r.quantity + delta } :: rest
    else r :: stock_update_first rest nm delta

/-- `add_to_stock` (lines 233-246): update the first matching row; if the
item is absent, first append a fresh row with quantity 0 (item_type
"envelope" unless the item is "mosolap"), then update it. -/
def add_to_stock (stock : List StockRow) (nm : String) (delta : Int) : List StockRow :=
  if ∀ r ∈ stock, r.item_name ≠ nm then
    stock_update_first
      (stock ++ [⟨if nm = "mosolap" then "mosolap" else "envelope", nm, 0⟩]) nm delta
  else stock_update_first stock nm delta

/-- The ledger rows one order's processing appends (lines 261-271): the
material deduction when `mos_qty > 0`, then the category deduction when the
category is one of the four envelope keys; both carry the engine timestamp,
source "shopify" and the order id as source_id. -/
def order_records (ts : Int) (o : OrderEvent) : List MovementRecord :=
  (if 0 < mos_qty o then
    [⟨ts, "mosolap", -(mos_qty o), order_reason o, "shopify", o.id⟩] else [])
  ++ (if envelope_type (mos_qty o) ∈ env_keys then
    [⟨ts, envelope_type (mos_qty o), -1, order_reason o, "shopify", o.id⟩] else [])

/-- All ledger rows a batch appends, in processing order. -/
def batch_records (ts : Int) : List OrderEvent → List MovementRecord
  | [] => []
  | o :: rest => order_records ts o ++ batch_records ts rest

/-- Accumulator of the processing loop (lines 248-273): in-memory stock
frame, rows appended to the ledger so far, `total_mosolap_delta`, and the
`env_counts` dict. -/
structure SyncAcc where
  stock : List StockRow
  recs : List MovementRecord
  total : Int
  counts : EnvCounts
deriving DecidableEq

/-- The material-deduction half of one loop iteration (lines 262-265). -/
def mos_step (ts : Int) (o : OrderEvent) (acc : SyncAcc) : SyncAcc :=
  if 0 < mos_qty o then
    { acc with
      stock := add_to_stock acc.stock "mosolap" (-(mos_qty o)),
      recs := acc.recs ++ [⟨ts, "mosolap", -(mos_qty o), order_reason o, "shopify", o.id⟩],
      total := acc.total + mos_qty o }
  else acc

/-- The envelope-deduction half of one loop iteration (lines 268-271). -/
def env_step (ts : Int) (o : OrderEvent) (acc : SyncAcc) : SyncAcc :=
  if envelope_type (mos_qty o) ∈ env_keys then
    { acc with
      stock := add_to_stock acc.stock (envelope_type (mos_qty o)) (-1),
      recs := acc.recs ++ [⟨ts, envelope_type (mos_qty o), -1, order_reason o, "shopify", o.id⟩],
      counts := acc.counts.bump (envelope_type (mos_qty o)) }
  else acc

/-- One iteration of the processing loop (lines 249-271). -/
def sync_step (ts : Int) (acc : SyncAcc) (o : OrderEvent) : SyncAcc :=
  env_step ts o (mos_step ts o acc)

/-- The report returned at lines 279-280 (or the `0, 0, {}` early return). -/
structure SyncResult where
  processed : Nat
  mosolap_used : Int
  env_counts : EnvCounts
deriving DecidableEq

/-- The post-call state and report of `apply_shopify_deductions`. -/
structure SyncOut where
  stock : List StockRow
  log : List MovementRecord
  report : SyncResult
deriving DecidableEq

/-- `apply_shopify_deductions` (lines 185-280), fault-free path: build the
dedup set, select the new orders, early-return `(0, 0, {})` when none,
otherwise fold the processing loop and return the final stock projection,
the extended ledger and the report. -/
def apply_shopify_deductions (ts baseline : Int) (stock : List StockRow)
    (log : List MovementRecord) (orders : List OrderEvent) : SyncOut :=
  let new := new_orders_of (processed_ids log) baseline orders
  if new.isEmpty then ⟨stock, log, ⟨0, 0, EnvCounts.zero⟩⟩
  else
    let acc := new.foldl (sync_step ts) ⟨stock, [], 0, EnvCounts.zero⟩
    ⟨acc.stock, log ++ acc.recs, ⟨new.length, acc.total, acc.counts⟩⟩

inductive SyncOutcome where
  | ok : SyncResult → SyncOutcome
  | error : SyncOutcome
deriving DecidableEq

/-- Durable state after a (possibly interrupted) sync call: the ledger
worksheet, the stock projection worksheet, the baseline setting, and the
outcome the caller observes (`error` models a raised exception). -/
structure DurableOut where
  ledger : List MovementRecord
  stock : List StockRow
  baseline : Int
  res : SyncOutcome
deriving DecidableEq

/-- Sequential single-record `ws_log.append_row` calls (line 94) under a
write budget: `none` never fails, `some k` performs `k` successful appends
and then raises, which aborts the remaining appends.  Returns the durable
ledger and whether all appends committed. -/
def run_appends : Option Nat → List MovementRecord → List MovementRecord →
    List MovementRecord × Bool
  | _, base, [] => (base, true)
  | none, base, r :: rest => run_appends none (base ++ [r]) rest
  | some 0, base, _ :: _ => (base, false)
  | some (n + 1), base, r :: rest => run_appends (some n) (base ++ [r]) rest

/-- `apply_shopify_deductions` with its fallible I/O made explicit: the
fetch outcome (line 202; `none` models `requests.get` raising before any
write) and the append budget.  On a mid-batch append failure the exception
propagates: the rows already appended stay in the ledger, the stock
projection is never written (line 277 is not reached) and the baseline
setting is untouched (the function never writes settings). -/
def sync_durable (ts baseline : Int) (stock : List StockRow)
    (log : List MovementRecord) (fetched : Option (List OrderEvent))
    (budget : Option Nat) : DurableOut :=
  match fetched with
  | none => ⟨log, stock, baseline, SyncOutcome.error⟩
  | some orders =>
    let new := new_orders_of (processed_ids log) baseline orders
    if new.isEmpty then ⟨log, stock, baseline, SyncOutcome.ok ⟨0, 0, EnvCounts.zero⟩⟩
    else
      match run_appends budget log (batch_records ts new) with
      | (ledger, true) =>
        let acc := new.foldl (sync_step ts) ⟨stock, [], 0, EnvCounts.zero⟩
        ⟨ledger, acc.stock, baseline, SyncOutcome.ok ⟨new.length, acc.total, acc.counts⟩⟩
      | (ledger, false) => ⟨ledger, stock, baseline, SyncOutcome.error⟩

/-- Number of ledger records with source "shopify" (case-insensitively, as
the dedup scan reads them) carrying a given source_id. -/
def shopify_count (log : List MovementRecord) (sid : String) : Nat :=
  log.countP (fun r => decide (py_lower r.source = "shopify") && decide (r.source_id = sid))

/-- `stock_df.loc[item, "quantity"].values[0]` (line 521): quantity of the
first row of the projection matching the item, `none` when absent (the UI
only offers names present in the projection). -/
def current_qty (stock : List StockRow) (item : String) : Option Int :=
  match stock.filter (fun r => decide (r.item_name = item)) with
  | [] => none
  | r :: _ => some r.quantity

structure ManualOut where
  stock : List StockRow
  log : List MovementRecord
  baseline : Int
  report : SyncResult
deriving DecidableEq

inductive ManualOutcome where
  | ok : ManualOut → ManualOutcome
  | rejected : String → ManualOutcome
deriving DecidableEq

/-- `apply_manual_delta` (lines 483-512): reject on empty reason or unknown
item; otherwise update the projection, append one manual movement record,
advance the baseline setting to the manual timestamp and immediately run
`apply_shopify_deductions` from that timestamp. -/
def apply_manual_delta (stock : List StockRow) (log : List MovementRecord)
    (item : String) (delta : Int) (reason : String) (ts : Int)
    (orders : List OrderEvent) : ManualOutcome :=
  if py_strip reason = "" then ManualOutcome.rejected "Megjegyzés kötelező!"
  else if ∀ r ∈ stock, r.item_name ≠ item then
    ManualOutcome.rejected "Ismeretlen tétel a stock_current-ben."
  else
    let stock1 := stock_update_first stock item delta
    let log1 := log ++ [⟨ts, item, delta, reason, "manual", ""⟩]
    let out := apply_shopify_deductions ts ts stock1 log1 orders
    ManualOutcome.ok ⟨out.stock, out.log, ts, out.report⟩

/-- The manual deduction button handler (lines 519-525): reject when the
requested amount exceeds the item's current projected quantity, otherwise
apply a negative manual delta. -/
def manual_deduction (stock : List StockRow) (log : List MovementRecord)
    (item : String) (amount : Int) (reason : String) (ts : Int)
    (orders : List OrderEvent) : ManualOutcome :=
  match current_qty stock item with
  | none => ManualOutcome.rejected "Ismeretlen tétel a stock_current-ben."
  | some q =>
    if q < amount then ManualOutcome.rejected "Nincs ennyi készleten!"
    else apply_manual_delta stock log item (-amount) reason ts orders

/-- Concrete fixtures used by witnesses and counterexamples. -/
def ex_stock : List StockRow := [⟨"mosolap", "mosolap", 8⟩]

def ex_stock_low : List StockRow := [⟨"mosolap", "mosolap", 1⟩]

def ex_order3 : OrderEvent := ⟨"1001", "#1001", some 5, [⟨"mosolap csomag", 3⟩]⟩

def ex_order3b : OrderEvent := ⟨"1002", "#1002", some 6, [⟨"mosolap csomag", 3⟩]⟩

def ex_order5 : OrderEvent := ⟨"1003", "#1003", some 5, [⟨"mosolap csomag", 5⟩]⟩

/-! ### Helper lemmas -/

theorem envelope_nincs_of_nonpos (q : Int) (h : q ≤ 0) : envelope_type q = "Nincs" := by
  unfold envelope_type
  split_ifs with h1 h2 h3 h4
  · exact absurd h1 (by omega)
  · rcases h2 with h2 | h2 <;> exact absurd h2 (by omega)
  · exact absurd h3 (by omega)
  · rcases h4 with h4 | h4 <;> exact absurd h4 (by omega)
  · rfl

theorem sync_step_recs (ts : Int) (acc : SyncAcc) (o : OrderEvent) :
    (sync_step ts acc o).recs = acc.recs ++ order_records ts o := by
  unfold sync_step env_step mos_step order_records
  split_ifs <;> simp

theorem foldl_sync_step_recs (ts : Int) (l : List OrderEvent) (acc : SyncAcc) :
    (l.foldl (sync_step ts) acc).recs = acc.recs ++ batch_records ts l := by
  induction l generalizing acc with
  | nil => simp [batch_records]
  | cons o rest ih =>
    rw [List.foldl_cons, ih, sync_step_recs, batch_records, List.append_assoc]

theorem sync_step_noop (ts : Int) (acc : SyncAcc) (o : OrderEvent)
    (h : mos_qty o ≤ 0) : sync_step ts acc o = acc := by
  have hm : mos_step ts o acc = acc := by
    unfold mos_step
    exact if_neg (by omega)
  unfold sync_step env_step
  rw [hm, envelope_nincs_of_nonpos _ h]
  exact if_neg (by decide)

theorem foldl_sync_step_noop (ts : Int) (l : List OrderEvent) (acc : SyncAcc)
    (h : ∀ o ∈ l, mos_qty o ≤ 0) : l.foldl (sync_step ts) acc = acc := by
  induction l generalizing acc with
  | nil => rfl
  | cons o rest ih =>
    rw [List.foldl_cons, sync_step_noop ts acc o (h o (List.mem_cons_self o rest))]
    exact ih acc (fun x hx => h x (List.mem_cons_of_mem _ hx))

theorem mem_batch_records {r : MovementRecord} {ts : Int} {l : List OrderEvent} :
    r ∈ batch_records ts l ↔ ∃ o ∈ l, r ∈ order_records ts o := by
  induction l with
  | nil => simp [batch_records]
  | cons o rest ih => simp [batch_records, List.mem_append, ih]

theorem order_records_fields {r : MovementRecord} {ts : Int} {o : OrderEvent}
    (h : r ∈ order_records ts o) : r.source = "shopify" ∧ r.source_id = o.id := by
  unfold order_records at h
  split_ifs at h <;> simp_all <;> rcases h with h | h <;> subst h <;> simp

theorem processed_ids_append (a b : List MovementRecord) :
    processed_ids (a ++ b) = processed_ids a ++ processed_ids b := by
  unfold processed_ids
  rw [List.filter_append, List.map_append]

theorem mem_processed_ids {sid : String} {l : List MovementRecord} :
    sid ∈ processed_ids l ↔
      ∃ r ∈ l, py_lower r.source = "shopify" ∧ r.source_id = sid := by
  unfold processed_ids
  simp [List.mem_map, List.mem_filter]
  constructor
  · rintro ⟨r, ⟨hr, hs⟩, hid⟩; exact ⟨r, hr, hs, hid⟩
  · rintro ⟨r, hr, hs, hid⟩; exact ⟨r, ⟨hr, hs⟩, hid⟩

theorem order_ok_iff {p : List String} {b : Int} {o : OrderEvent} :
    order_ok p b o = true ↔
      o.id ≠ "" ∧ o.id ∉ p ∧ strictly_newer b o = true := by
  unfold order_ok
  simp [Bool.and_eq_true, and_assoc]

theorem sync_log_eq (ts b : Int) (stock : List StockRow)
    (log : List MovementRecord) (orders : List OrderEvent) :
    (apply_shopify_deductions ts b stock log orders).log =
      log ++ batch_records ts (new_orders_of (processed_ids log) b orders) := by
  unfold apply_shopify_deductions
  cases hne : (new_orders_of (processed_ids log) b orders).isEmpty with
  | true =>
    rw [List.isEmpty_iff] at hne
    simp [hne, batch_records]
  | false =>
    simp only [hne, Bool.false_eq_true, if_false, foldl_sync_step_recs,
      List.nil_append]

theorem sync_stock_log_noop (ts b : Int) (stock : List StockRow)
    (log : List MovementRecord) (orders : List OrderEvent)
    (h : ∀ o ∈ new_orders_of (processed_ids log) b orders, mos_qty o ≤ 0) :
    (apply_shopify_deductions ts b stock log orders).stock = stock ∧
    (apply_shopify_deductions ts b stock log orders).log = log := by
  unfold apply_shopify_deductions
  cases hne : (new_orders_of (processed_ids log) b orders).isEmpty with
  | true => simp [hne]
  | false =>
    simp only [hne, Bool.false_eq_true, if_false]
    rw [foldl_sync_step_noop ts _ _ h]
    constructor <;> simp

theorem run_appends_none (base rs : List MovementRecord) :
    run_appends none base rs = (base ++ rs, true) := by
  induction rs generalizing base with
  | nil => simp [run_appends]
  | cons r rest ih =>
    rw [run_appends, ih]
    simp

theorem run_appends_enough (n : Nat) (base rs : List MovementRecord)
    (h : rs.length ≤ n) : run_appends (some n) base rs = (base ++ rs, true) := by
  induction rs generalizing n base with
  | nil => simp [run_appends]
  | cons r rest ih =>
    cases n with
    | zero => simp at h
    | succ m =>
      rw [run_appends, ih m _ (by simpa using h)]
      simp

theorem run_appends_short (n : Nat) (base rs : List MovementRecord)
    (h : n < rs.length) :
    run_appends (some n) base rs = (base ++ rs.take n, false) := by
  induction rs generalizing n base with
  | nil => simp at h
  | cons r rest ih =>
    cases n with
    | zero => simp [run_appends]
    | succ m =>
      rw [run_appends, ih m _ (by simpa using h)]
      simp

theorem new_orders_filter_newer (p : List String) (b : Int)
    (orders : List OrderEvent) :
    new_orders_of p b (orders.filter (strictly_newer b)) =
      new_orders_of p b orders := by
  unfold new_orders_of
  rw [List.filter_filter]
  apply List.filter_congr
  intro o _
  cases h : strictly_newer b o <;> simp [order_ok, h]

theorem stock_update_first_append_absent (stock : List StockRow) (nm : String)
    (delta : Int) (row : StockRow) (h : ∀ r ∈ stock, r.item_name ≠ nm)
    (hrow : row.item_name = nm) :
    stock_update_first (stock ++ [row]) nm delta =
      stock ++ [{ row with quantity := row.quantity + delta }] := by
  induction stock with
  | nil => simp [stock_update_first, hrow]
  | cons r rest ih =>
    rw [List.cons_append, stock_update_first,
      if_neg (h r (List.mem_cons_self r rest)),
      ih (fun x hx => h x (List.mem_cons_of_mem _ hx))]
    simp

/-! ### Claim theorems -/

/-- C5. Classification table: category derivation is total on non-negative
integers with 1 ↦ F16, 2 and 3 ↦ H18, 4 ↦ I19, 5 and 6 ↦ K20, and every
other value (0 or at least 7) ↦ NoCategory ("Nincs"); on inputs 0..7 it
yields Nincs, F16, H18, H18, I19, K20, K20, Nincs respectively. -/
theorem claim_C5_classification :
    (∀ q : Int, 0 ≤ q →
      (q = 1 → envelope_type q = "F16") ∧
      ((q = 2 ∨ q = 3) → envelope_type q = "H18") ∧
      (q = 4 → envelope_type q = "I19") ∧
      ((q = 5 ∨ q = 6) → envelope_type q = "K20") ∧
      ((q = 0 ∨ 7 ≤ q) → envelope_type q = "Nincs"))
    ∧ (List.range 8).map (fun n => envelope_type (n : Int)) =
        ["Nincs", "F16", "H18", "H18", "I19", "K20", "K20", "Nincs"] := by
  constructor
  · intro q _
    refine ⟨?_, ?_, ?_, ?_, ?_⟩
    · rintro rfl; rfl
    · rintro (rfl | rfl) <;> rfl
    · rintro rfl; rfl
    · rintro (rfl | rfl) <;> rfl
    · rintro (rfl | h7)
      · rfl
      · unfold envelope_type
        split_ifs with h1 h2 h3 h4
        · exact absurd h1 (by omega)
        · rcases h2 with h2 | h2 <;> exact absurd h2 (by omega)
        · exact absurd h3 (by omega)
        · rcases h4 with h4 | h4 <;> exact absurd h4 (by omega)
        · rfl
  · decide

/-- Witness for C5 at the concrete input 3. -/
theorem claim_C5_classification_witness :
    (0 : Int) ≤ 3 ∧ envelope_type 3 = "H18" :=
  ⟨by decide, ((claim_C5_classification.1 3 (by decide)).2.1 (Or.inr rfl))⟩

/-- C6. Strict baseline filter: sync processes only order events created
strictly after the baseline — restricting the fetched list to those events
changes neither the deductions nor the returned counts, so every event at
or before the baseline (or with an unparseable creation time) is excluded
from both. -/
theorem claim_C6_strict_baseline (ts b : Int) (stock : List StockRow)
    (log : List MovementRecord) (orders : List OrderEvent) :
    apply_shopify_deductions ts b stock log orders =
      apply_shopify_deductions ts b stock log
        (orders.filter (strictly_newer b)) := by
  unfold apply_shopify_deductions
  rw [new_orders_filter_newer]

/-- C7. Clean abort on fetch failure: if fetching the order events fails,
sync terminates with the ledger, the stock projection and the baseline
setting all unchanged, and reports the error. -/
theorem claim_C7_fetch_abort (ts b : Int) (stock : List StockRow)
    (log : List MovementRecord) (budget : Option Nat) :
    sync_durable ts b stock log none budget =
      ⟨log, stock, b, SyncOutcome.error⟩ := rfl

/-- C8. Priority filtering: a line item whose title contains (substring,
case-insensitive) a keyword of the fixed priority/express set contributes
nothing to consumableQty; in particular "Express shipping label" is such a
title, and with quantity 5 it contributes 0 alongside a normal item of
quantity 3. -/
theorem claim_C8_priority_filter :
    is_priority_item "Express shipping label" = true
    ∧ mos_qty ⟨"1", "#1", some 1,
        [⟨"Express shipping label", 5⟩, ⟨"mosolap csomag", 3⟩]⟩ = 3
    ∧ (∀ (idn nm : String) (c : Option Int) (pre post : List LineItem)
        (t : String) (q : Int), is_priority_item t = true →
        mos_qty ⟨idn, nm, c, pre ++ ⟨t, q⟩ :: post⟩ =
          mos_qty ⟨idn, nm, c, pre ++ post⟩) := by
  refine ⟨by decide, by decide, ?_⟩
  intro idn nm c pre post t q ht
  simp [mos_qty, List.filter_append, List.filter_cons, ht]

/-- Witness for C8: dropping the priority line item of the concrete order
leaves consumableQty at 3. -/
theorem claim_C8_priority_filter_witness :
    is_priority_item "Express shipping label" = true ∧
    mos_qty ⟨"1", "#1", some 1,
        [] ++ ⟨"Express shipping label", 5⟩ :: [⟨"mosolap csomag", 3⟩]⟩ =
      mos_qty ⟨"1", "#1", some 1, [] ++ [⟨"mosolap csomag", 3⟩]⟩ :=
  ⟨by decide, claim_C8_priority_filter.2.2 "1" "#1" (some 1) []
    [⟨"mosolap csomag", 3⟩] "Express shipping label" 5 (by decide)⟩

/-- C10. Missing items are auto-created: a deduction targeting an item
absent from the projection appends a fresh row (item_type "envelope" unless
the item is "mosolap", quantity 0) and then applies the delta to it,
leaving every other row untouched; concretely, a sync whose order needs an
H18 envelope not present in the projection creates the H18 row at -1
instead of failing. -/
theorem claim_C10_autocreate :
    (∀ (stock : List StockRow) (nm : String) (delta : Int),
      (∀ r ∈ stock, r.item_name ≠ nm) →
      add_to_stock stock nm delta =
        stock ++ [⟨if nm = "mosolap" then "mosolap" else "envelope", nm, delta⟩])
    ∧ (apply_shopify_deductions 10 0 ex_stock [] [ex_order3]).stock =
        [⟨"mosolap", "mosolap", 5⟩, ⟨"envelope", "H18", -1⟩] := by
  constructor
  · intro stock nm delta h
    unfold add_to_stock
    rw [if_pos h, stock_update_first_append_absent stock nm delta _ h rfl]
    simp
  · decide

/-- Witness for C10: creating the missing H18 row in the concrete
projection. -/
theorem claim_C10_autocreate_witness :
    (∀ r ∈ ex_stock, r.item_name ≠ "H18") ∧
    add_to_stock ex_stock "H18" (-1) =
      ex_stock ++ [⟨"envelope", "H18", -1⟩] :=
  ⟨by decide, by
    have h := claim_C10_autocreate.1 ex_stock "H18" (-1) (by decide)
    simpa using h⟩

theorem new_orders_second_nonpos (ts1 b : Int) (log0 : List MovementRecord)
    (orders : List OrderEvent) :
    ∀ o ∈ new_orders_of
        (processed_ids (log0 ++ batch_records ts1
          (new_orders_of (processed_ids log0) b orders))) b orders,
      mos_qty o ≤ 0 := by
  intro o ho
  by_contra hq
  push_neg at hq
  have ho' := List.mem_filter.mp ho
  obtain ⟨hmem, hok⟩ := ho'
  rw [order_ok_iff] at hok
  obtain ⟨hid, hnotin, hnew⟩ := hok
  have hnotin0 : o.id ∉ processed_ids log0 := by
    intro hc
    exact hnotin (by rw [processed_ids_append]; exact List.mem_append_left _ hc)
  have hok0 : order_ok (processed_ids log0) b o = true :=
    order_ok_iff.mpr ⟨hid, hnotin0, hnew⟩
  have ho1 : o ∈ new_orders_of (processed_ids log0) b orders :=
    List.mem_filter.mpr ⟨hmem, hok0⟩
  have hrec : (⟨ts1, "mosolap", -(mos_qty o), order_reason o, "shopify", o.id⟩ :
      MovementRecord) ∈ order_records ts1 o := by
    unfold order_records
    rw [if_pos hq]
    exact List.mem_append_left _ (List.mem_singleton_self _)
  have hrecb : (⟨ts1, "mosolap", -(mos_qty o), order_reason o, "shopify", o.id⟩ :
      MovementRecord) ∈ batch_records ts1 (new_orders_of (processed_ids log0) b orders) :=
    mem_batch_records.mpr ⟨o, ho1, hrec⟩
  apply hnotin
  rw [processed_ids_append]
  apply List.mem_append_right
  refine mem_processed_ids.mpr
    ⟨⟨ts1, "mosolap", -(mos_qty o), order_reason o, "shopify", o.id⟩, hrecb, ?_, rfl⟩
  show py_lower "shopify" = "shopify"
  decide

/-- C1. Idempotence of sync: running `apply_shopify_deductions` a second
time over the same fetched orders and the same baseline, with no other
writes in between, appends zero new MovementRecords and leaves the stock
projection unchanged (every order id that caused a write in the first run
is in the second run's dedup set, and the remaining survivors have
non-positive consumable quantity and so write nothing). -/
theorem claim_C1_idempotence (ts1 ts2 b : Int) (stock0 : List StockRow)
    (log0 : List MovementRecord) (orders : List OrderEvent) :
    (apply_shopify_deductions ts2 b
        (apply_shopify_deductions ts1 b stock0 log0 orders).stock
        (apply_shopify_deductions ts1 b stock0 log0 orders).log orders).log =
      (apply_shopify_deductions ts1 b stock0 log0 orders).log ∧
    (apply_shopify_deductions ts2 b
        (apply_shopify_deductions ts1 b stock0 log0 orders).stock
        (apply_shopify_deductions ts1 b stock0 log0 orders).log orders).stock =
      (apply_shopify_deductions ts1 b stock0 log0 orders).stock := by
  have hlog1 := sync_log_eq ts1 b stock0 log0 orders
  have h2 : ∀ o ∈ new_orders_of
      (processed_ids (apply_shopify_deductions ts1 b stock0 log0 orders).log)
      b orders, mos_qty o ≤ 0 := by
    rw [hlog1]
    exact new_orders_second_nonpos ts1 b log0 orders
  obtain ⟨hs, hl⟩ := sync_stock_log_noop ts2 b _ _ orders h2
  exact ⟨hl, hs⟩

/-- C2 counterexample: with a single order of consumable quantity 3
(category H18), an interruption after the first durable write — the two
records are written by two separate `append_row` calls — leaves exactly the
material deduction in the ledger and no category deduction, refuting the
claimed atomicity of the pair. -/
theorem claim_C2_atomic_pair_counterexample :
    (sync_durable 10 0 ex_stock [] (some [ex_order3]) (some 1)).res =
      SyncOutcome.error ∧
    (sync_durable 10 0 ex_stock [] (some [ex_order3]) (some 1)).ledger =
      [⟨10, "mosolap", -3, "Auto Shopify (#1001)", "shopify", "1001"⟩] ∧
    ((sync_durable 10 0 ex_stock [] (some [ex_order3]) (some 1)).ledger.countP
      (fun r => decide (r.item_name = "H18"))) = 0 := by
  refine ⟨by decide, by decide, by decide⟩

/-- C2 amended: the material-deduction and category-deduction records of an
order are appended by two separate single-record writes, material first; an
interruption between the two writes leaves exactly the material deduction
durably applied (and the stock projection unwritten). -/
theorem claim_C2_atomic_pair_amended (ts b : Int) (stock : List StockRow)
    (log : List MovementRecord) (o : OrderEvent)
    (hok : order_ok (processed_ids log) b o = true)
    (hq : 0 < mos_qty o)
    (henv : envelope_type (mos_qty o) ∈ env_keys) :
    sync_durable ts b stock log (some [o]) (some 1) =
      ⟨log ++ [⟨ts, "mosolap", -(mos_qty o), order_reason o, "shopify", o.id⟩],
       stock, b, SyncOutcome.error⟩ := by
  have hnew : new_orders_of (processed_ids log) b [o] = [o] := by
    unfold new_orders_of
    rw [List.filter_cons_of_pos hok]
    rfl
  have hrecs : batch_records ts [o] =
      [⟨ts, "mosolap", -(mos_qty o), order_reason o, "shopify", o.id⟩,
       ⟨ts, envelope_type (mos_qty o), -1, order_reason o, "shopify", o.id⟩] := by
    show order_records ts o ++ batch_records ts [] = _
    unfold order_records
    rw [if_pos hq, if_pos henv]
    rfl
  simp only [sync_durable, hnew, hrecs, List.isEmpty_cons, Bool.false_eq_true,
    if_false]
  rw [run_appends_short 1 log _ (by simp)]
  simp

/-- Witness for the amended C2 at the concrete order of quantity 3. -/
theorem claim_C2_atomic_pair_amended_witness :
    order_ok (processed_ids []) 0 ex_order3 = true ∧
    0 < mos_qty ex_order3 ∧
    envelope_type (mos_qty ex_order3) ∈ env_keys ∧
    sync_durable 10 0 ex_stock [] (some [ex_order3]) (some 1) =
      ⟨[] ++ [⟨10, "mosolap", -(mos_qty ex_order3), order_reason ex_order3,
        "shopify", ex_order3.id⟩], ex_stock, 0, SyncOutcome.error⟩ :=
  ⟨by decide, by decide, by decide,
    claim_C2_atomic_pair_amended 10 0 ex_stock [] ex_order3
      (by decide) (by decide) (by decide)⟩

/-- C3 counterexample: with two new orders and the durable write failing on
the second order's first append, the first order is fully committed (its
two records are in the ledger), yet the call reports a bare error carrying
no committed count — refuting "returns to the caller the exact number of
orders successfully committed". -/
theorem claim_C3_partial_failure_counterexample :
    (sync_durable 10 0 ex_stock [] (some [ex_order3, ex_order3b]) (some 2)).res =
      SyncOutcome.error ∧
    (sync_durable 10 0 ex_stock [] (some [ex_order3, ex_order3b]) (some 2)).ledger =
      [⟨10, "mosolap", -3, "Auto Shopify (#1001)", "shopify", "1001"⟩,
       ⟨10, "H18", -1, "Auto Shopify (#1001)", "shopify", "1001"⟩] ∧
    (sync_durable 10 0 ex_stock [] (some [ex_order3, ex_order3b]) (some 2)).stock =
      ex_stock := by
  refine ⟨by decide, by decide, by decide⟩

/-- C3 amended: if a durable write fails after `k` of the batch's appends,
sync stops processing the remaining events but fails without returning a
committed count: the exception propagates to the caller, the `k` records
appended so far stay durably in the ledger, and the stock projection and
baseline are unwritten, so the caller can retry from the same baseline
(the dedup scan skips fully committed orders). -/
theorem claim_C3_partial_failure_amended (ts b : Int) (stock : List StockRow)
    (log : List MovementRecord) (orders : List OrderEvent) (k : Nat)
    (hne : (new_orders_of (processed_ids log) b orders).isEmpty = false)
    (hk : k < (batch_records ts (new_orders_of (processed_ids log) b orders)).length) :
    sync_durable ts b stock log (some orders) (some k) =
      ⟨log ++ (batch_records ts (new_orders_of (processed_ids log) b orders)).take k,
       stock, b, SyncOutcome.error⟩ := by
  simp only [sync_durable, hne, Bool.false_eq_true, if_false]
  rw [run_appends_short k log _ hk]

/-- Witness for the amended C3: the concrete two-order batch interrupted
after two appends. -/
theorem claim_C3_partial_failure_amended_witness :
    (new_orders_of (processed_ids []) 0 [ex_order3, ex_order3b]).isEmpty = false ∧
    2 < (batch_records 10 (new_orders_of (processed_ids []) 0
      [ex_order3, ex_order3b])).length ∧
    sync_durable 10 0 ex_stock [] (some [ex_order3, ex_order3b]) (some 2) =
      ⟨[] ++ (batch_records 10 (new_orders_of (processed_ids []) 0
        [ex_order3, ex_order3b])).take 2, ex_stock, 0, SyncOutcome.error⟩ :=
  ⟨by decide, by decide,
    claim_C3_partial_failure_amended 10 0 ex_stock [] [ex_order3, ex_order3b] 2
      (by decide) (by decide)⟩

theorem shopify_count_append (a c : List MovementRecord) (sid : String) :
    shopify_count (a ++ c) sid = shopify_count a sid + shopify_count c sid := by
  simp [shopify_count, List.countP_append]

theorem order_records_length_le (ts : Int) (o : OrderEvent) :
    (order_records ts o).length ≤ 2 := by
  unfold order_records
  split_ifs <;> simp

theorem shopify_count_order_records_ne (ts : Int) (o : OrderEvent) (sid : String)
    (h : o.id ≠ sid) : shopify_count (order_records ts o) sid = 0 := by
  unfold shopify_count
  rw [List.countP_eq_zero]
  intro r hr
  have h2 := (order_records_fields hr).2
  simp [h2, h]

theorem shopify_count_batch_zero (ts : Int) (l : List OrderEvent) (sid : String)
    (h : ∀ o ∈ l, o.id ≠ sid) : shopify_count (batch_records ts l) sid = 0 := by
  induction l with
  | nil => rfl
  | cons o rest ih =>
    rw [batch_records, shopify_count_append,
      shopify_count_order_records_ne ts o sid (h o (List.mem_cons_self o rest)),
      ih (fun x hx => h x (List.mem_cons_of_mem _ hx))]

theorem shopify_count_batch_le (ts : Int) (l : List OrderEvent) (sid : String)
    (hn : (l.map OrderEvent.id).Nodup) :
    shopify_count (batch_records ts l) sid ≤ 2 := by
  induction l with
  | nil => simp [batch_records, shopify_count]
  | cons o rest ih =>
    rw [batch_records, shopify_count_append]
    rw [List.map_cons, List.nodup_cons] at hn
    obtain ⟨hno, hrest⟩ := hn
    by_cases h : o.id = sid
    · have hz : shopify_count (batch_records ts rest) sid = 0 := by
        apply shopify_count_batch_zero
        intro x hx hxe
        exact hno (by
          rw [show o.id = x.id from h.trans hxe.symm]
          exact List.mem_map_of_mem _ hx)
      rw [hz]
      have hle := List.countP_le_length
        (p := fun r => decide (py_lower r.source = "shopify") &&
          decide (r.source_id = sid)) (l := order_records ts o)
      have := le_trans hle (order_records_length_le ts o)
      simpa [shopify_count] using this
    · rw [shopify_count_order_records_ne ts o sid h]
      simpa using ih hrest

theorem exists_order_of_shopify_count_pos (ts : Int) (l : List OrderEvent)
    (sid : String) (h : 0 < shopify_count (batch_records ts l) sid) :
    ∃ o ∈ l, o.id = sid := by
  rw [shopify_count, List.countP_pos_iff] at h
  obtain ⟨r, hr, hp⟩ := h
  obtain ⟨o, ho, hro⟩ := mem_batch_records.mp hr
  refine ⟨o, ho, ?_⟩
  have h2 := (order_records_fields hro).2
  simp only [Bool.and_eq_true, decide_eq_true_eq] at hp
  rw [← h2]
  exact hp.2

theorem shopify_count_zero_of_not_processed (log : List MovementRecord)
    (sid : String) (h : sid ∉ processed_ids log) : shopify_count log sid = 0 := by
  unfold shopify_count
  rw [List.countP_eq_zero]
  intro r hr hp
  simp only [Bool.and_eq_true, decide_eq_true_eq] at hp
  exact h (mem_processed_ids.mpr ⟨r, hr, hp.1, hp.2⟩)

/-- C4 counterexample: processing one order of quantity 3 from an empty
ledger leaves two MovementRecords with source "shopify" carrying the same
source_id "1001" (the material and the category deduction), refuting "each
source_id occurs at most once". -/
theorem claim_C4_source_id_counterexample :
    shopify_count (apply_shopify_deductions 10 0 ex_stock [] [ex_order3]).log
      "1001" = 2 := by
  decide

/-- C4 amended: among shopify-source MovementRecords a source_id occurs at
most twice — at most the material/category pair of a single order — and
sync preserves this bound whenever the fetched order ids are pairwise
distinct (the dedup set makes a processed id contribute nothing, and an
unprocessed id gains at most one pair). -/
theorem claim_C4_source_id_amended (ts b : Int) (stock : List StockRow)
    (log : List MovementRecord) (orders : List OrderEvent)
    (hids : (orders.map OrderEvent.id).Nodup)
    (hpre : ∀ s, shopify_count log s ≤ 2) :
    ∀ s, shopify_count (apply_shopify_deductions ts b stock log orders).log s ≤ 2 := by
  intro s
  rw [sync_log_eq, shopify_count_append]
  have hnew : ((new_orders_of (processed_ids log) b orders).map OrderEvent.id).Nodup :=
    List.Nodup.sublist (List.Sublist.map _ (List.filter_sublist _)) hids
  by_cases hz : shopify_count
      (batch_records ts (new_orders_of (processed_ids log) b orders)) s = 0
  · rw [hz]
    simpa using hpre s
  · obtain ⟨o, ho, hid⟩ :=
      exists_order_of_shopify_count_pos ts _ s (Nat.pos_of_ne_zero hz)
    have hok := (List.mem_filter.mp ho).2
    rw [order_ok_iff] at hok
    have h0 : shopify_count log s = 0 := by
      apply shopify_count_zero_of_not_processed
      rw [← hid]
      exact hok.2.1
    rw [h0]
    simpa using shopify_count_batch_le ts _ s hnew

/-- Witness for the amended C4: a two-order batch with distinct ids keeps
every source_id at multiplicity at most 2. -/
theorem claim_C4_source_id_amended_witness :
    (([ex_order3, ex_order3b].map OrderEvent.id).Nodup) ∧
    shopify_count
      (apply_shopify_deductions 10 0 ex_stock [] [ex_order3, ex_order3b]).log
      "1001" ≤ 2 :=
  ⟨by decide,
    claim_C4_source_id_amended 10 0 ex_stock [] [ex_order3, ex_order3b]
      (by decide) (fun s => by simp [shopify_count]) "1001"⟩

theorem current_qty_some_mem {stock : List StockRow} {item : String} {q : Int}
    (h : current_qty stock item = some q) : ∃ r ∈ stock, r.item_name = item := by
  unfold current_qty at h
  cases hf : stock.filter (fun r => decide (r.item_name = item)) with
  | nil => rw [hf] at h; simp at h
  | cons r rest =>
    have hr : r ∈ stock.filter (fun x => decide (x.item_name = item)) := by
      rw [hf]
      exact List.mem_cons_self r rest
    have hm := List.mem_filter.mp hr
    exact ⟨r, hm.1, by simpa using hm.2⟩

/-- C9. Sync never checks stock sufficiency: with the fetch succeeding and
no persistence fault, sync always returns a report — never an
insufficient-stock error — for every stock state and batch; concretely an
order of quantity 5 against a stock of 1 succeeds and drives the projected
mosolap quantity to -4; and only the manual negative-adjustment path
rejects, exactly when the requested amount exceeds the item's current
projected quantity. -/
theorem claim_C9_no_sufficiency_check :
    (∀ (ts b : Int) (stock : List StockRow) (log : List MovementRecord)
        (orders : List OrderEvent),
      ∃ r, (sync_durable ts b stock log (some orders) none).res = SyncOutcome.ok r)
    ∧ (sync_durable 10 0 ex_stock_low [] (some [ex_order5]) none).res =
        SyncOutcome.ok ⟨1, 5, ⟨0, 0, 0, 1⟩⟩
    ∧ (sync_durable 10 0 ex_stock_low [] (some [ex_order5]) none).stock =
        [⟨"mosolap", "mosolap", -4⟩, ⟨"envelope", "K20", -1⟩]
    ∧ (∀ (stock : List StockRow) (log : List MovementRecord) (item : String)
        (amount : Int) (reason : String) (ts : Int) (orders : List OrderEvent)
        (q : Int), current_qty stock item = some q → py_strip reason ≠ "" →
        (manual_deduction stock log item amount reason ts orders =
            ManualOutcome.rejected "Nincs ennyi készleten!" ↔ q < amount)) := by
  refine ⟨?_, by decide, by decide, ?_⟩
  · intro ts b stock log orders
    simp only [sync_durable]
    cases hne : (new_orders_of (processed_ids log) b orders).isEmpty with
    | true => simp [hne]
    | false =>
      simp only [hne, Bool.false_eq_true, if_false, run_appends_none]
      exact ⟨_, rfl⟩
  · intro stock log item amount reason ts orders q hq hreason
    simp only [manual_deduction, hq]
    by_cases hlt : q < amount
    · simp [hlt]
    · rw [if_neg hlt]
      unfold apply_manual_delta
      rw [if_neg hreason]
      have hpres : ¬∀ r ∈ stock, r.item_name ≠ item := by
        obtain ⟨r, hr, hn⟩ := current_qty_some_mem hq
        intro hall
        exact hall r hr hn
      rw [if_neg hpres]
      simp [hlt]

/-- Witness for C9 at concrete inputs: an empty batch returns a report, and
the manual deduction of 5 from a projected quantity of 8 is not rejected. -/
theorem claim_C9_no_sufficiency_check_witness :
    (∃ r, (sync_durable 10 0 ex_stock [] (some []) none).res = SyncOutcome.ok r) ∧
    current_qty ex_stock "mosolap" = some 8 ∧
    (py_strip "leltar" ≠ "") ∧
    (manual_deduction ex_stock [] "mosolap" 5 "leltar" 3 [] =
        ManualOutcome.rejected "Nincs ennyi készleten!" ↔ (8 : Int) < 5) :=
  ⟨claim_C9_no_sufficiency_check.1 10 0 ex_stock [] [],
   by decide, by decide,
   claim_C9_no_sufficiency_check.2.2.2 ex_stock [] "mosolap" 5 "leltar" 3 [] 8
     (by decide) (by decide)⟩
